import Mathlib

/-!
Verification of the calendar arithmetic core of `darian_datetime`
(file `src/darian_datetime/__init__.py`).

Python integer `//` and `%` with a positive divisor are floor division and a
non-negative remainder, which coincide with Lean's `Int` `/` (`Int.ediv`) and
`%` (`Int.emod`) for positive divisors; every division in the embedded code
has a positive literal divisor, so `Int` `/` and `%` model them exactly.
-/

namespace Darian

/-- `_is_leap` from the source: five-band leap-year predicate. -/
def isLeap (y : ℤ) : Bool :=
  if y ≤ 2000 then
    if y % 1000 = 0 then true
    else if y % 100 = 0 then false
    else if y % 10 = 0 then true
    else if y % 2 = 1 then true
    else false
  else if y ≤ 4800 then
    if y % 150 = 0 then false
    else if y % 10 = 0 then true
    else if y % 2 = 1 then true
    else false
  else if y ≤ 6800 then
    if y % 200 = 0 then false
    else if y % 10 = 0 then true
    else if y % 2 = 1 then true
    else false
  else if y ≤ 8400 then
    if y % 300 = 0 then false
    else if y % 10 = 0 then true
    else if y % 2 = 1 then true
    else false
  else
    if y % 600 = 0 then false
    else if y % 10 = 0 then true
    else if y % 2 = 1 then true
    else false

/-- `_sols_before_year` from the source (`x = y - 1` inlined). -/
def solsBeforeYear (y : ℤ) : ℤ :=
  if y ≤ 2000 then y * 669 - (y-1) / 2 + (y-1) / 10 - (y-1) / 100 + (y-1) / 1000
  else if y ≤ 4800 then y * 669 - (y-1) / 2 + (y-1) / 10 - (y-1) / 150 - 5
  else if y ≤ 6800 then y * 669 - (y-1) / 2 + (y-1) / 10 - (y-1) / 200 - 13
  else if y ≤ 8400 then y * 669 - (y-1) / 2 + (y-1) / 10 - (y-1) / 300 - 25
  else y * 669 - (y-1) / 2 + (y-1) / 10 - (y-1) / 600 - 39

/-- `_sols_in_month` from the source. -/
def solsInMonth (y m : ℤ) : ℤ :=
  if m = 6 ∨ m = 12 ∨ m = 18 then 27
  else if m = 24 ∧ ¬ (isLeap y = true) then 27
  else 28

/-- `_sols_before_month` from the source. -/
def solsBeforeMonth (m : ℤ) : ℤ := (m-1) * 28 - (m-1) / 6

/-- `_ymd2ord` from the source (the returned value; the `assert` range checks
are captured separately by `validYMD`). -/
def ymd2ord (year month sol : ℤ) : ℤ :=
  solsBeforeYear year + solsBeforeMonth month + sol

/-- The validity conditions checked by `_check_date_fields` / the `assert`s in
`_ymd2ord`: `MMINYEAR <= year <= MMAXYEAR`, `1 <= month <= 24`,
`1 <= sol <= _sols_in_month(year, month)`. -/
def validYMD (year month sol : ℤ) : Prop :=
  0 ≤ year ∧ year ≤ 9999 ∧ 1 ≤ month ∧ month ≤ 24 ∧
    1 ≤ sol ∧ sol ≤ solsInMonth year month

instance (year month sol : ℤ) : Decidable (validYMD year month sol) := by
  unfold validYMD; infer_instance

/-- The year estimate `int(n // 668.59)` in `_ord2ymd`.  The IEEE double
written `668.59` is exactly `5880979833718047 / 2^43`, and for every
`n` in `[1, 6_685_945]` the float floor division `n // 668.59` equals the
exact rational floor `(n * 2^43) / 5880979833718047` (the quotient is far
below `2^53`, so the float result is exact enough that its floor agrees with
the exact floor on this whole domain). -/
def yearEstimate (n : ℤ) : ℤ := n * 8796093022208 / 5880979833718047

/-- The year-selection step of `_ord2ymd`: estimate then correct by one. -/
def ord2year (n : ℤ) : ℤ :=
  if n ≤ solsBeforeYear (yearEstimate n) then yearEstimate n - 1
  else if solsBeforeYear (yearEstimate n + 1) < n then yearEstimate n + 1
  else yearEstimate n

/-- The month-selection step of `_ord2ymd`, applied to the remaining sol count
`n1 = n - _sols_before_year(year)`: estimate `n1 // 28 + 1` then correct by
one. -/
def ord2month (n1 : ℤ) : ℤ :=
  if n1 ≤ solsBeforeMonth (n1 / 28 + 1) then n1 / 28 + 1 - 1
  else if n1 / 28 + 1 < 24 ∧ solsBeforeMonth (n1 / 28 + 1 + 1) < n1 then n1 / 28 + 1 + 1
  else n1 / 28 + 1

/-- `_ord2ymd` from the source. -/
def ord2ymd (n : ℤ) : ℤ × ℤ × ℤ :=
  (ord2year n,
   ord2month (n - solsBeforeYear (ord2year n)),
   n - solsBeforeYear (ord2year n) - solsBeforeMonth (ord2month (n - solsBeforeYear (ord2year n))))

/-- A normalized Martian duration: the `(sols, seconds, microseconds)`
triple stored by `Mtimedelta`. -/
structure Mtimedelta where
  sols : ℤ
  seconds : ℤ
  microseconds : ℤ
  deriving DecidableEq, Repr

/-- The net duration of an argument tuple of `Mtimedelta.__new__` in
microseconds (1 sol = 86400 seconds, 1 week = 7 sols). -/
def tdTotal (sols seconds microseconds milliseconds minutes hours weeks : ℤ) : ℤ :=
  ((sols + weeks * 7) * 86400 + (seconds + minutes * 60 + hours * 3600)) * 1000000
    + (microseconds + milliseconds * 1000)

/-- `Mtimedelta.__new__` from the source, restricted to integer arguments
(the `float` branches are skipped, their fractional carries are `0.0`, and
`round(microseconds + 0.0)` is the identity on an integer); `none` models the
`OverflowError` raised when the normalized sol count exceeds the bound. -/
def tdNew (sols seconds microseconds milliseconds minutes hours weeks : ℤ) :
    Option Mtimedelta :=
  let sols1 := sols + weeks * 7
  let seconds1 := seconds + minutes * 60 + hours * 3600
  let microseconds1 := microseconds + milliseconds * 1000
  let d0 := sols1
  let d1 := d0 + seconds1 / 86400
  let s1 := seconds1 % 86400
  let seconds2 := microseconds1 / 1000000
  let microseconds2 := microseconds1 % 1000000
  let d2 := d1 + seconds2 / 86400
  let s2 := s1 + seconds2 % 86400
  let s3 := s2 + microseconds2 / 1000000
  let us := microseconds2 % 1000000
  let d := d2 + s3 / 86400
  let s := s3 % 86400
  if 999999999 < d.natAbs then none
  else some ⟨d, s, us⟩

/-- Direct normalization of a net microsecond count into the canonical
triple, with the same overflow bound; `tdNew` is proved equal to
`tdOfTotal ∘ tdTotal`. -/
def tdOfTotal (t : ℤ) : Option Mtimedelta :=
  if 999999999 < (t / 86400000000).natAbs then none
  else some ⟨t / 86400000000, t % 86400000000 / 1000000, t % 1000000⟩

/-- `Mtimedelta._to_microseconds` from the source. -/
def tdToMicro (a : Mtimedelta) : ℤ :=
  (a.sols * 86400 + a.seconds) * 1000000 + a.microseconds

/-- The normalization invariant of a constructed `Mtimedelta`. -/
def tdNormalized (a : Mtimedelta) : Prop :=
  0 ≤ a.seconds ∧ a.seconds ≤ 86399 ∧ 0 ≤ a.microseconds ∧
    a.microseconds ≤ 999999 ∧ a.sols.natAbs ≤ 999999999

instance (a : Mtimedelta) : Decidable (tdNormalized a) := by
  unfold tdNormalized; infer_instance

/-- `Mtimedelta.__add__` (the `Mtimedelta` operand case): field-wise sums fed
back through the constructor. -/
def tdAdd (a b : Mtimedelta) : Option Mtimedelta :=
  tdNew (a.sols + b.sols) (a.seconds + b.seconds)
    (a.microseconds + b.microseconds) 0 0 0 0

/-- `Mtimedelta.__sub__` (the `Mtimedelta` operand case): field-wise
differences fed back through the constructor. -/
def tdSub (a b : Mtimedelta) : Option Mtimedelta :=
  tdNew (a.sols - b.sols) (a.seconds - b.seconds)
    (a.microseconds - b.microseconds) 0 0 0 0

/-- The leap rule exactly as the specification states it: per band, an
optional "always leap" large modulus, then the band's exception modulus
(not leap), then divisibility by 10 (leap), then oddness (leap), else not
leap. -/
def bandLeapSpec (largeMod : Option ℤ) (excMod : ℤ) (y : ℤ) : Bool :=
  match largeMod with
  | some L =>
    if y % L = 0 then true
    else if y % excMod = 0 then false
    else if y % 10 = 0 then true
    else if y % 2 = 1 then true
    else false
  | none =>
    if y % excMod = 0 then false
    else if y % 10 = 0 then true
    else if y % 2 = 1 then true
    else false

/-- Modelled from the spec: the five-band table of the claim
(`y ≤ 2000`: large modulus 1000, exception 100; `2001..4800`: exception 150;
`4801..6800`: exception 200; `6801..8400`: exception 300; `y > 8400`:
exception 600). -/
def isLeapSpec (y : ℤ) : Bool :=
  if y ≤ 2000 then bandLeapSpec (some 1000) 100 y
  else if y ≤ 4800 then bandLeapSpec none 150 y
  else if y ≤ 6800 then bandLeapSpec none 200 y
  else if y ≤ 8400 then bandLeapSpec none 300 y
  else bandLeapSpec none 600 y

/-- A Martian calendar date: the `(year, month, sol)` fields of `Mdate`. -/
structure Mdate where
  year : ℤ
  month : ℤ
  sol : ℤ
  deriving DecidableEq, Repr

/-- `Mdate.toordinal`. -/
def mdateToOrd (d : Mdate) : ℤ := ymd2ord d.year d.month d.sol

/-- `Mdate.fromordinal` (the constructor validation performed by
`Mdate.__new__` always succeeds on ordinals in the supported range, as proved
below). -/
def mdateFromOrd (n : ℤ) : Mdate :=
  ⟨(ord2ymd n).1, (ord2ymd n).2.1, (ord2ymd n).2.2⟩

/-- The validity condition of `Mdate` (from `_check_date_fields`). -/
def validMdate (d : Mdate) : Prop := validYMD d.year d.month d.sol

instance (d : Mdate) : Decidable (validMdate d) := by
  unfold validMdate; infer_instance

/-- `Mdate.__add__` with an `Mtimedelta`: only `other.sols` is read; `none`
models the raised `OverflowError` when the result ordinal leaves
`[1, _MAXORDINAL]`. -/
def mdateAdd (d : Mdate) (t : Mtimedelta) : Option Mdate :=
  if 0 < mdateToOrd d + t.sols ∧ mdateToOrd d + t.sols ≤ 6685945 then
    some (mdateFromOrd (mdateToOrd d + t.sols))
  else none

/-- Strict lexicographic order on stored triples: `Mtimedelta` comparison is
`_cmp(self._getstate(), other._getstate())`, Python tuple comparison. -/
def tdLt (a b : Mtimedelta) : Bool :=
  decide (a.sols < b.sols ∨ (a.sols = b.sols ∧
    (a.seconds < b.seconds ∨ (a.seconds = b.seconds ∧
      a.microseconds < b.microseconds))))

/-- Non-strict lexicographic order on stored triples. -/
def tdLe (a b : Mtimedelta) : Bool :=
  tdLt a b || decide (a = b)

/-- The offset range check of `Mtimezone.__new__`:
`_minoffset <= offset <= _maxoffset` where
`_maxoffset = Mtimedelta(hours=24, microseconds=-1)` normalizes to
`(0, 86399, 999999)` and `_minoffset = -_maxoffset` normalizes to
`(-1, 0, 1)` (both verified below by evaluating the constructor). -/
def mtimezoneOffsetOK (off : Mtimedelta) : Bool :=
  tdLe ⟨-1, 0, 1⟩ off && tdLe off ⟨0, 86399, 999999⟩

/-- `Mtimedelta.__neg__`: negate all three stored fields and renormalize
through the constructor. -/
def tdNeg (a : Mtimedelta) : Option Mtimedelta :=
  tdNew (-a.sols) (-a.seconds) (-a.microseconds) 0 0 0 0

/-- The `assert not m % Mtimedelta(minutes=1), "whole minute"` condition in
`Mtime.__hash__`, for an `Mtime` with the given hour and minute (fold 0)
whose resolved, truthy offset is `tzoff`; built from the `Mtimedelta`
operations the source composes: `divmod` on `Mtimedelta` pairs divides the
`_to_microseconds()` counts and wraps the remainder in `Mtimedelta(0, 0, r)`,
and `%` does the same with the second remainder.  `some true` means the
assertion holds; `none` would mean an intermediate construction overflowed. -/
def mtimeHashWholeMinute (hour minute : ℤ) (tzoff : Mtimedelta) : Option Bool := do
  let lhs ← tdNew 0 0 0 0 minute hour 0
  let diff ← tdSub lhs tzoff
  let hourTd ← tdNew 0 0 0 0 0 1 0
  let minuteTd ← tdNew 0 0 0 0 1 0 0
  let m ← tdNew 0 0 (tdToMicro diff % tdToMicro hourTd) 0 0 0 0
  let r ← tdNew 0 0 (tdToMicro m % tdToMicro minuteTd) 0 0 0 0
  return (r == (⟨0, 0, 0⟩ : Mtimedelta))

/-- The wall-clock fields of an `Mdatetime` (everything an offset provider
can inspect about the value except the provider reference itself). -/
structure MdtFields where
  year : ℤ
  month : ℤ
  sol : ℤ
  hour : ℤ
  minute : ℤ
  second : ℤ
  microsecond : ℤ
  fold : Bool
  deriving DecidableEq, Repr

/-- An offset provider (an `Mtzinfo` subclass): `off` models `mtcoffset`,
and `tag` models Python object identity (`is`) — providers are
`is`-identical iff they carry the same tag. -/
structure Mtz where
  tag : ℕ
  off : MdtFields → Option Mtimedelta

/-- An `Mdatetime`: wall-clock fields plus an optional offset provider. -/
structure Mdt where
  f : MdtFields
  tz : Option Mtz

/-- Python `mytz is ottz` on the optional providers. -/
def tzIs : Option Mtz → Option Mtz → Bool
  | none, none => true
  | some p, some q => p.tag == q.tag
  | _, _ => false

/-- The errors the embedded `Mdatetime` operations can raise. -/
inductive PyErr where
  | overflow
  | offsetRange
  | naiveAware
  deriving DecidableEq, Repr

/-- `Mdatetime.mtcoffset`: resolve the provider offset and apply
`_check_mtc_offset`, which raises `ValueError` unless the offset is strictly
between `-Mtimedelta(1)` and `Mtimedelta(1)` (i.e. `(-1,0,0)` and `(1,0,0)`,
compared lexicographically). -/
def mdtOffset (dt : Mdt) : Except PyErr (Option Mtimedelta) :=
  match dt.tz with
  | none => .ok none
  | some p =>
    match p.off dt.f with
    | none => .ok none
    | some off =>
      if tdLt ⟨-1, 0, 0⟩ off && tdLt off ⟨1, 0, 0⟩ then .ok (some off)
      else .error .offsetRange

/-- `self.replace(fold=not self.fold)`. -/
def flipFold (dt : Mdt) : Mdt := ⟨{ dt.f with fold := !dt.f.fold }, dt.tz⟩

/-- `_cmp(x, y)` from the source, on integers. -/
def cmpInt (x y : ℤ) : ℤ := if x = y then 0 else if x < y then -1 else 1

/-- Python tuple comparison of the seven wall-clock fields, as used by the
`base_compare` branch of `Mdatetime._cmp`. -/
def cmpFields (a b : MdtFields) : ℤ :=
  if a.year ≠ b.year then cmpInt a.year b.year
  else if a.month ≠ b.month then cmpInt a.month b.month
  else if a.sol ≠ b.sol then cmpInt a.sol b.sol
  else if a.hour ≠ b.hour then cmpInt a.hour b.hour
  else if a.minute ≠ b.minute then cmpInt a.minute b.minute
  else if a.second ≠ b.second then cmpInt a.second b.second
  else cmpInt a.microsecond b.microsecond

/-- `Mdatetime.__sub__` for two `Mdatetime` operands: the naive field-wise
difference, adjusted by the offset difference when both operands are aware
with unequal offsets; mixing naive and aware operands raises `TypeError`. -/
def mdtSub (a b : Mdt) : Except PyErr Mtimedelta :=
  match tdNew
      (ymd2ord a.f.year a.f.month a.f.sol - ymd2ord b.f.year b.f.month b.f.sol)
      ((a.f.second + a.f.minute * 60 + a.f.hour * 3600)
        - (b.f.second + b.f.minute * 60 + b.f.hour * 3600))
      (a.f.microsecond - b.f.microsecond) 0 0 0 0 with
  | none => .error .overflow
  | some base =>
    if tzIs a.tz b.tz then .ok base
    else
      match mdtOffset a with
      | .error e => .error e
      | .ok myoff =>
        match mdtOffset b with
        | .error e => .error e
        | .ok otoff =>
          if myoff = otoff then .ok base
          else
            match myoff, otoff with
            | some mo, some oo =>
              match tdAdd base oo with
              | none => .error .overflow
              | some t1 =>
                match tdSub t1 mo with
                | none => .error .overflow
                | some r => .ok r
            | _, _ => .error .naiveAware

/-- The tail of `Mdatetime._cmp` after the fold-flip guards: `base_compare`
on equal resolved offsets, the naive/aware outcome (`2` under `allow_mixed`,
`TypeError` otherwise), and the offset-adjusted subtraction sign for two
aware operands with different offsets. -/
def mdtCmpRest (a b : Mdt) (allowMixed : Bool)
    (myoff otoff : Option Mtimedelta) : Except PyErr ℤ :=
  if myoff = otoff then .ok (cmpFields a.f b.f)
  else
    match myoff, otoff with
    | none, _ => if allowMixed then .ok 2 else .error .naiveAware
    | _, none => if allowMixed then .ok 2 else .error .naiveAware
    | some _, some _ =>
      match mdtSub a b with
      | .error e => .error e
      | .ok diff =>
        if diff.sols < 0 then .ok (-1)
        else if diff = (⟨0, 0, 0⟩ : Mtimedelta) then .ok 0
        else .ok 1

/-- `Mdatetime._cmp`: fast path on identical providers, the fold-flip
equality guards when `allow_mixed`, then `mdtCmpRest`. -/
def mdtCmp (a b : Mdt) (allowMixed : Bool) : Except PyErr ℤ :=
  if tzIs a.tz b.tz then .ok (cmpFields a.f b.f)
  else
    match mdtOffset a with
    | .error e => .error e
    | .ok myoff =>
      match mdtOffset b with
      | .error e => .error e
      | .ok otoff =>
        if allowMixed then
          match mdtOffset (flipFold a) with
          | .error e => .error e
          | .ok myoff2 =>
            if myoff ≠ myoff2 then .ok 2
            else
              match mdtOffset (flipFold b) with
              | .error e => .error e
              | .ok otoff2 =>
                if otoff ≠ otoff2 then .ok 2
                else mdtCmpRest a b allowMixed myoff otoff
        else mdtCmpRest a b allowMixed myoff otoff

/-- `Mdatetime.__eq__` with an `Mdatetime` operand:
`self._cmp(other, allow_mixed=True) == 0`. -/
def mdtEq (a b : Mdt) : Except PyErr Bool :=
  (mdtCmp a b true).map (fun c => c == 0)

/-- `Mdatetime.__lt__` with an `Mdatetime` operand: `self._cmp(other) < 0`. -/
def mdtLt (a b : Mdt) : Except PyErr Bool :=
  (mdtCmp a b false).map (fun c => decide (c < 0))

/-- `Mdatetime.__gt__` with an `Mdatetime` operand: `self._cmp(other) > 0`. -/
def mdtGt (a b : Mdt) : Except PyErr Bool :=
  (mdtCmp a b false).map (fun c => decide (0 < c))

/-- A provider that honours the documented contract: every offset it returns
passes the `_check_mtc_offset` range check. -/
def tzWellBehaved (p : Mtz) : Prop :=
  ∀ f o, p.off f = some o → (tdLt ⟨-1, 0, 0⟩ o && tdLt o ⟨1, 0, 0⟩) = true

/-- `Mdatetime.__add__` with an `Mtimedelta`: express the date-time as one
`Mtimedelta`, add, then rebuild via `Mdate.fromordinal` and
`Mtimedelta.combine` with `Mtime(hour, minute, second, microseconds,
tzinfo=self._tzinfo)` — the `Mtime` is built with the default `fold=0`, and
`combine` takes `tzinfo` and `fold` from that `Mtime`. -/
def mdatetimeAdd (dt : Mdt) (t : Mtimedelta) : Except PyErr Mdt :=
  match tdNew (ymd2ord dt.f.year dt.f.month dt.f.sol)
      dt.f.second dt.f.microsecond 0 dt.f.minute dt.f.hour 0 with
  | none => .error .overflow
  | some base =>
    match tdAdd base t with
    | none => .error .overflow
    | some delta =>
      if 0 < delta.sols ∧ delta.sols ≤ 6685945 then
        .ok ⟨⟨(ord2ymd delta.sols).1, (ord2ymd delta.sols).2.1,
              (ord2ymd delta.sols).2.2,
              delta.seconds / 3600, delta.seconds % 3600 / 60,
              delta.seconds % 3600 % 60, delta.microseconds, false⟩, dt.tz⟩
      else .error .overflow

/-- A fixed one-hour offset provider, used as a concrete example value. -/
def exTz : Mtz := ⟨0, fun _ => some ⟨0, 3600, 0⟩⟩

/-- A concrete naive date-time. -/
def exNaive : Mdt := ⟨⟨219, 13, 27, 5, 4, 3, 2, false⟩, none⟩

/-- A concrete aware date-time with the same wall-clock fields as
`exNaive`. -/
def exAware : Mdt := ⟨⟨219, 13, 27, 5, 4, 3, 2, false⟩, some exTz⟩

/-- A concrete naive date-time sitting in the second fold. -/
def exFold : Mdt := ⟨⟨219, 13, 27, 5, 4, 3, 2, true⟩, none⟩

/-- The value of `exFold + Mtimedelta(1, 2, 3)`. -/
def exFoldAdded : Mdt := ⟨⟨219, 13, 28, 5, 4, 5, 5, false⟩, none⟩

/-! ### Calendar lemmas -/

lemma solsBeforeYear_zero : solsBeforeYear 0 = 0 := by decide

lemma solsBeforeYear_top : solsBeforeYear 10000 = 6685945 := by decide

lemma isLeap_true_iff (y : ℤ) :
    isLeap y = true ↔
      (y ≤ 2000 ∧ (y % 1000 = 0 ∨ (y % 100 ≠ 0 ∧ (y % 10 = 0 ∨ y % 2 = 1)))) ∨
      (2000 < y ∧ y ≤ 4800 ∧ y % 150 ≠ 0 ∧ (y % 10 = 0 ∨ y % 2 = 1)) ∨
      (4800 < y ∧ y ≤ 6800 ∧ y % 200 ≠ 0 ∧ (y % 10 = 0 ∨ y % 2 = 1)) ∨
      (6800 < y ∧ y ≤ 8400 ∧ y % 300 ≠ 0 ∧ (y % 10 = 0 ∨ y % 2 = 1)) ∨
      (8400 < y ∧ y % 600 ≠ 0 ∧ (y % 10 = 0 ∨ y % 2 = 1)) := by
  unfold isLeap
  split_ifs <;> simp <;> omega

lemma sbY_eval1 (y : ℤ) (h : y ≤ 2000) :
    solsBeforeYear y = y * 669 - (y-1) / 2 + (y-1) / 10 - (y-1) / 100 + (y-1) / 1000 := by
  unfold solsBeforeYear; rw [if_pos h]

lemma sbY_eval2 (y : ℤ) (h1 : 2000 < y) (h2 : y ≤ 4800) :
    solsBeforeYear y = y * 669 - (y-1) / 2 + (y-1) / 10 - (y-1) / 150 - 5 := by
  unfold solsBeforeYear; rw [if_neg (by omega), if_pos h2]

lemma sbY_eval3 (y : ℤ) (h1 : 4800 < y) (h2 : y ≤ 6800) :
    solsBeforeYear y = y * 669 - (y-1) / 2 + (y-1) / 10 - (y-1) / 200 - 13 := by
  unfold solsBeforeYear; rw [if_neg (by omega), if_neg (by omega), if_pos h2]

lemma sbY_eval4 (y : ℤ) (h1 : 6800 < y) (h2 : y ≤ 8400) :
    solsBeforeYear y = y * 669 - (y-1) / 2 + (y-1) / 10 - (y-1) / 300 - 25 := by
  unfold solsBeforeYear; rw [if_neg (by omega), if_neg (by omega), if_neg (by omega), if_pos h2]

lemma sbY_eval5 (y : ℤ) (h1 : 8400 < y) :
    solsBeforeYear y = y * 669 - (y-1) / 2 + (y-1) / 10 - (y-1) / 600 - 39 := by
  unfold solsBeforeYear
  rw [if_neg (by omega), if_neg (by omega), if_neg (by omega), if_neg (by omega)]

lemma ediv_step2 (y : ℤ) : y / 2 = (y-1) / 2 + (if (2:ℤ) ∣ y then 1 else 0) := by
  rcases em ((2:ℤ) ∣ y) with h | h
  · rw [if_pos h]; omega
  · rw [if_neg h]; omega

lemma ediv_step10 (y : ℤ) : y / 10 = (y-1) / 10 + (if (10:ℤ) ∣ y then 1 else 0) := by
  rcases em ((10:ℤ) ∣ y) with h | h
  · rw [if_pos h]; omega
  · rw [if_neg h]; omega

lemma ediv_step100 (y : ℤ) : y / 100 = (y-1) / 100 + (if (100:ℤ) ∣ y then 1 else 0) := by
  rcases em ((100:ℤ) ∣ y) with h | h
  · rw [if_pos h]; omega
  · rw [if_neg h]; omega

lemma ediv_step1000 (y : ℤ) : y / 1000 = (y-1) / 1000 + (if (1000:ℤ) ∣ y then 1 else 0) := by
  rcases em ((1000:ℤ) ∣ y) with h | h
  · rw [if_pos h]; omega
  · rw [if_neg h]; omega

lemma ediv_step150 (y : ℤ) : y / 150 = (y-1) / 150 + (if (150:ℤ) ∣ y then 1 else 0) := by
  rcases em ((150:ℤ) ∣ y) with h | h
  · rw [if_pos h]; omega
  · rw [if_neg h]; omega

lemma ediv_step200 (y : ℤ) : y / 200 = (y-1) / 200 + (if (200:ℤ) ∣ y then 1 else 0) := by
  rcases em ((200:ℤ) ∣ y) with h | h
  · rw [if_pos h]; omega
  · rw [if_neg h]; omega

lemma ediv_step300 (y : ℤ) : y / 300 = (y-1) / 300 + (if (300:ℤ) ∣ y then 1 else 0) := by
  rcases em ((300:ℤ) ∣ y) with h | h
  · rw [if_pos h]; omega
  · rw [if_neg h]; omega

lemma ediv_step600 (y : ℤ) : y / 600 = (y-1) / 600 + (if (600:ℤ) ∣ y then 1 else 0) := by
  rcases em ((600:ℤ) ∣ y) with h | h
  · rw [if_pos h]; omega
  · rw [if_neg h]; omega

set_option maxHeartbeats 4000000 in
lemma sbY_step (y : ℤ) (h0 : 0 ≤ y) (h : y ≤ 9999) :
    solsBeforeYear (y+1) = solsBeforeYear y + (if isLeap y = true then 669 else 668) := by
  have hiff := isLeap_true_iff y
  have hcase : y ≤ 1999 ∨ y = 2000 ∨ (2001 ≤ y ∧ y ≤ 4799) ∨ y = 4800 ∨
      (4801 ≤ y ∧ y ≤ 6799) ∨ y = 6800 ∨ (6801 ≤ y ∧ y ≤ 8399) ∨ y = 8400 ∨
      (8401 ≤ y ∧ y ≤ 9999) := by omega
  cases hl : isLeap y with
  | false =>
    rw [hl] at hiff
    have hp : ¬ _ := fun hq => by simpa using hiff.mpr hq
    rw [if_neg (by simp [hl])]
    rcases hcase with hc | hc | hc | hc | hc | hc | hc | hc | hc
    · rw [sbY_eval1 (y+1) (by omega), sbY_eval1 y (by omega)]
      have h1 : y + 1 - 1 = y := by omega
      rw [h1, ediv_step2 y, ediv_step10 y, ediv_step100 y, ediv_step1000 y]
      split_ifs <;> omega
    · exact absurd hl (by subst hc; decide)
    · rw [sbY_eval2 (y+1) (by omega) (by omega), sbY_eval2 y (by omega) (by omega)]
      have h1 : y + 1 - 1 = y := by omega
      rw [h1, ediv_step2 y, ediv_step10 y, ediv_step150 y]
      split_ifs <;> omega
    · subst hc; decide
    · rw [sbY_eval3 (y+1) (by omega) (by omega), sbY_eval3 y (by omega) (by omega)]
      have h1 : y + 1 - 1 = y := by omega
      rw [h1, ediv_step2 y, ediv_step10 y, ediv_step200 y]
      split_ifs <;> omega
    · subst hc; decide
    · rw [sbY_eval4 (y+1) (by omega) (by omega), sbY_eval4 y (by omega) (by omega)]
      have h1 : y + 1 - 1 = y := by omega
      rw [h1, ediv_step2 y, ediv_step10 y, ediv_step300 y]
      split_ifs <;> omega
    · subst hc; decide
    · rw [sbY_eval5 (y+1) (by omega), sbY_eval5 y (by omega)]
      have h1 : y + 1 - 1 = y := by omega
      rw [h1, ediv_step2 y, ediv_step10 y, ediv_step600 y]
      split_ifs <;> omega
  | true =>
    have hp := hiff.mp hl
    rw [show (if (true = true) then (669:ℤ) else 668) = 669 from rfl]
    rcases hcase with hc | hc | hc | hc | hc | hc | hc | hc | hc
    · rw [sbY_eval1 (y+1) (by omega), sbY_eval1 y (by omega)]
      have h1 : y + 1 - 1 = y := by omega
      rw [h1, ediv_step2 y, ediv_step10 y, ediv_step100 y, ediv_step1000 y]
      split_ifs <;> omega
    · subst hc; decide
    · rw [sbY_eval2 (y+1) (by omega) (by omega), sbY_eval2 y (by omega) (by omega)]
      have h1 : y + 1 - 1 = y := by omega
      rw [h1, ediv_step2 y, ediv_step10 y, ediv_step150 y]
      split_ifs <;> omega
    · exact absurd hl (by subst hc; decide)
    · rw [sbY_eval3 (y+1) (by omega) (by omega), sbY_eval3 y (by omega) (by omega)]
      have h1 : y + 1 - 1 = y := by omega
      rw [h1, ediv_step2 y, ediv_step10 y, ediv_step200 y]
      split_ifs <;> omega
    · exact absurd hl (by subst hc; decide)
    · rw [sbY_eval4 (y+1) (by omega) (by omega), sbY_eval4 y (by omega) (by omega)]
      have h1 : y + 1 - 1 = y := by omega
      rw [h1, ediv_step2 y, ediv_step10 y, ediv_step300 y]
      split_ifs <;> omega
    · exact absurd hl (by subst hc; decide)
    · rw [sbY_eval5 (y+1) (by omega), sbY_eval5 y (by omega)]
      have h1 : y + 1 - 1 = y := by omega
      rw [h1, ediv_step2 y, ediv_step10 y, ediv_step600 y]
      split_ifs <;> omega

lemma sbY_succ_lb (y : ℤ) (h0 : 0 ≤ y) (h : y ≤ 9999) :
    solsBeforeYear y + 668 ≤ solsBeforeYear (y+1) := by
  have hs := sbY_step y h0 h
  split_ifs at hs <;> omega

lemma sbY_succ_ub (y : ℤ) (h0 : 0 ≤ y) (h : y ≤ 9999) :
    solsBeforeYear (y+1) ≤ solsBeforeYear y + 669 := by
  have hs := sbY_step y h0 h
  split_ifs at hs <;> omega

lemma sbY_mono_nat (k : ℕ) :
    ∀ a : ℤ, 0 ≤ a → a + k ≤ 10000 → solsBeforeYear a ≤ solsBeforeYear (a + k) := by
  induction k with
  | zero => intro a _ _; simp
  | succ n ih =>
    intro a h0 hk
    have hcast : (n.succ : ℤ) = (n : ℤ) + 1 := by push_cast; ring
    have h1 : solsBeforeYear a ≤ solsBeforeYear (a + n) := by
      apply ih a h0
      omega
    have h2 := sbY_succ_lb (a + n) (by omega) (by omega)
    have harg : a + (n.succ : ℤ) = (a + n) + 1 := by omega
    rw [harg]
    omega

lemma sbY_mono (a b : ℤ) (h0 : 0 ≤ a) (hab : a ≤ b) (hb : b ≤ 10000) :
    solsBeforeYear a ≤ solsBeforeYear b := by
  obtain ⟨k, rfl⟩ : ∃ k : ℕ, b = a + k := ⟨(b - a).toNat, by omega⟩
  exact sbY_mono_nat k a h0 (by omega)

lemma sbY_est_lb (y : ℤ) (h1 : 1 ≤ y) (h : y ≤ 10000) :
    8796093022208 * solsBeforeYear (y-1) < 5880979833718047 * y := by
  rcases (show y - 1 ≤ 2000 ∨ (2000 < y-1 ∧ y-1 ≤ 4800) ∨ (4800 < y-1 ∧ y-1 ≤ 6800) ∨
      (6800 < y-1 ∧ y-1 ≤ 8400) ∨ 8400 < y-1 from by omega) with hc | hc | hc | hc | hc
  · rw [sbY_eval1 _ hc]; omega
  · rw [sbY_eval2 _ hc.1 hc.2]; omega
  · rw [sbY_eval3 _ hc.1 hc.2]; omega
  · rw [sbY_eval4 _ hc.1 hc.2]; omega
  · rw [sbY_eval5 _ hc]; omega

lemma sbY_est_ub (y : ℤ) (h0 : 0 ≤ y) (h : y ≤ 9998) :
    5880979833718047 * (y+1) ≤ 8796093022208 * solsBeforeYear (y+2) := by
  rcases (show y + 2 ≤ 2000 ∨ (2000 < y+2 ∧ y+2 ≤ 4800) ∨ (4800 < y+2 ∧ y+2 ≤ 6800) ∨
      (6800 < y+2 ∧ y+2 ≤ 8400) ∨ 8400 < y+2 from by omega) with hc | hc | hc | hc | hc
  · rw [sbY_eval1 _ hc]; omega
  · rw [sbY_eval2 _ hc.1 hc.2]; omega
  · rw [sbY_eval3 _ hc.1 hc.2]; omega
  · rw [sbY_eval4 _ hc.1 hc.2]; omega
  · rw [sbY_eval5 _ hc]; omega

lemma ord2year_spec (n : ℤ) (hn1 : 1 ≤ n) (hn2 : n ≤ 6685945) :
    0 ≤ ord2year n ∧ ord2year n ≤ 9999 ∧
      solsBeforeYear (ord2year n) < n ∧ n ≤ solsBeforeYear (ord2year n + 1) := by
  have hB0 := solsBeforeYear_zero
  have hBtop := solsBeforeYear_top
  have heD : 5880979833718047 * yearEstimate n ≤ n * 8796093022208 ∧
      n * 8796093022208 < 5880979833718047 * (yearEstimate n + 1) := by
    unfold yearEstimate
    constructor <;> omega
  have he0 : 0 ≤ yearEstimate n := by unfold yearEstimate; omega
  have heTop : yearEstimate n ≤ 10000 := by unfold yearEstimate; omega
  unfold ord2year
  split_ifs with hdown hup
  · have h1e : 1 ≤ yearEstimate n := by
      by_contra hx
      push_neg at hx
      have hee : yearEstimate n = 0 := by omega
      rw [hee] at hdown
      omega
    have hlb := sbY_est_lb (yearEstimate n) h1e heTop
    have harg : yearEstimate n - 1 + 1 = yearEstimate n := by ring
    rw [harg]
    exact ⟨by omega, by omega, by omega, hdown⟩
  · have he9998 : yearEstimate n ≤ 9998 := by
      by_contra hx
      push_neg at hx
      rcases (show yearEstimate n = 9999 ∨ yearEstimate n = 10000 from by omega) with hee | hee
      · rw [hee, show (9999:ℤ)+1 = 10000 from by norm_num] at hup
        omega
      · rw [hee] at hdown
        omega
    have hub := sbY_est_ub (yearEstimate n) he0 he9998
    have harg : yearEstimate n + 1 + 1 = yearEstimate n + 2 := by ring
    rw [harg]
    exact ⟨by omega, by omega, hup, by omega⟩
  · push_neg at hdown hup
    have he9999 : yearEstimate n ≤ 9999 := by
      by_contra hx
      push_neg at hx
      have hee : yearEstimate n = 10000 := by omega
      rw [hee] at hdown
      omega
    exact ⟨he0, he9999, hdown, hup⟩

lemma sim_bounds (y m : ℤ) : 27 ≤ solsInMonth y m ∧ solsInMonth y m ≤ 28 := by
  unfold solsInMonth
  split_ifs <;> omega

lemma month_step (y m : ℤ) (h1 : 1 ≤ m) (h2 : m ≤ 23) :
    solsBeforeMonth (m+1) = solsBeforeMonth m + solsInMonth y m := by
  unfold solsBeforeMonth solsInMonth
  split_ifs with ha hb
  · omega
  · have := hb.1; omega
  · omega

lemma sbm_mono (a b : ℤ) (hab : a ≤ b) : solsBeforeMonth a ≤ solsBeforeMonth b := by
  unfold solsBeforeMonth
  omega

lemma yearLen (y : ℤ) (h0 : 0 ≤ y) (h : y ≤ 9999) :
    solsBeforeYear (y+1) = solsBeforeYear y + 641 + solsInMonth y 24 := by
  have hstep := sbY_step y h0 h
  have hsim : solsInMonth y 24 = (if isLeap y = true then 28 else 27) := by
    unfold solsInMonth
    rw [if_neg (by norm_num)]
    by_cases hl : isLeap y = true
    · rw [if_neg (fun hq => hq.2 hl), if_pos hl]
    · rw [if_pos ⟨rfl, hl⟩, if_neg hl]
  rw [hsim]
  split_ifs at hstep ⊢ <;> omega

lemma ord2month_spec (y n1 : ℤ) (h0 : 0 ≤ y) (hy : y ≤ 9999)
    (h1 : 1 ≤ n1) (h2 : n1 ≤ solsBeforeYear (y+1) - solsBeforeYear y) :
    1 ≤ ord2month n1 ∧ ord2month n1 ≤ 24 ∧
      solsBeforeMonth (ord2month n1) < n1 ∧
      n1 ≤ solsBeforeMonth (ord2month n1) + solsInMonth y (ord2month n1) := by
  have h669 := sbY_succ_ub y h0 hy
  have hn669 : n1 ≤ 669 := by omega
  unfold ord2month
  split_ifs with hdown hup
  · -- month = n1/28 + 1 - 1
    have harg : n1 / 28 + 1 - 1 = n1 / 28 := by ring
    rw [harg]
    have hm2 : 2 ≤ n1 / 28 + 1 := by
      by_contra hx
      push_neg at hx
      have : n1 / 28 + 1 = 1 := by omega
      rw [this] at hdown
      simp only [solsBeforeMonth] at hdown
      omega
    have hms := month_step y (n1 / 28) (by omega) (by omega)
    simp only [solsBeforeMonth] at hdown hms ⊢
    omega
  · -- month = n1/28 + 1 + 1
    obtain ⟨hup1, hup2⟩ := hup
    have hsim := sim_bounds y (n1 / 28 + 1 + 1)
    simp only [solsBeforeMonth] at hup2 ⊢
    omega
  · -- month = n1/28 + 1
    push_neg at hdown
    rcases (show n1 / 28 + 1 = 24 ∨ n1 / 28 + 1 ≤ 23 from by omega) with h24 | h23
    · rw [h24]
      rw [h24] at hdown
      have hyl := yearLen y h0 hy
      simp only [solsBeforeMonth] at hdown ⊢
      omega
    · have hm1 : 1 ≤ n1 / 28 + 1 := by omega
      have hnot : n1 ≤ solsBeforeMonth (n1 / 28 + 1 + 1) := by
        by_contra hx
        push_neg at hx
        exact absurd ⟨by omega, hx⟩ hup
      have hms := month_step y (n1 / 28 + 1) hm1 h23
      simp only [solsBeforeMonth] at hdown hnot hms ⊢
      omega

lemma ord2ymd_spec (n : ℤ) (hg1 : 1 ≤ n) (hg2 : n ≤ 6685945) :
    validYMD (ord2ymd n).1 (ord2ymd n).2.1 (ord2ymd n).2.2 ∧
      ymd2ord (ord2ymd n).1 (ord2ymd n).2.1 (ord2ymd n).2.2 = n := by
  obtain ⟨hy0, hy9999, hlt, hle⟩ := ord2year_spec n hg1 hg2
  have hm := ord2month_spec (ord2year n) (n - solsBeforeYear (ord2year n))
    hy0 hy9999 (by omega) (by omega)
  obtain ⟨hm1, hm24, hmlt, hmle⟩ := hm
  unfold ord2ymd validYMD ymd2ord
  dsimp only
  refine ⟨⟨hy0, hy9999, hm1, hm24, by omega, by omega⟩, by omega⟩

lemma ymd2ord_bounds (y m s : ℤ) (h : validYMD y m s) :
    solsBeforeYear y < ymd2ord y m s ∧ ymd2ord y m s ≤ solsBeforeYear (y+1) := by
  obtain ⟨h0, h9999, hm1, hm24, hs1, hs2⟩ := h
  have hyl := yearLen y h0 h9999
  rcases (show m = 24 ∨ m ≤ 23 from by omega) with hm | hm
  · subst hm
    unfold ymd2ord
    simp only [solsBeforeMonth]
    omega
  · have hms := month_step y m (by omega) hm
    have hsb : solsBeforeMonth (m+1) ≤ solsBeforeMonth 24 := sbm_mono (m+1) 24 (by omega)
    have hsim24 := sim_bounds y 24
    unfold ymd2ord
    simp only [solsBeforeMonth] at hms hsb ⊢
    omega

lemma ymd2ord_range (y m s : ℤ) (h : validYMD y m s) :
    1 ≤ ymd2ord y m s ∧ ymd2ord y m s ≤ 6685945 := by
  obtain ⟨hb1, hb2⟩ := ymd2ord_bounds y m s h
  obtain ⟨h0, h9999, _, _, _, _⟩ := h
  have hl := sbY_mono 0 y le_rfl h0 (by omega)
  have hu := sbY_mono (y+1) 10000 (by omega) (by omega) le_rfl
  have hB0 := solsBeforeYear_zero
  have hBtop := solsBeforeYear_top
  omega

lemma ymd2ord_roundtrip (y m s : ℤ) (h : validYMD y m s) :
    ord2ymd (ymd2ord y m s) = (y, m, s) := by
  obtain ⟨hb1, hb2⟩ := ymd2ord_bounds y m s h
  obtain ⟨hg1, hg2⟩ := ymd2ord_range y m s h
  obtain ⟨h0, h9999, hm1, hm24, hs1, hs2⟩ := h
  obtain ⟨hy0', hy9999', hlt', hle'⟩ := ord2year_spec (ymd2ord y m s) hg1 hg2
  have hyy : ord2year (ymd2ord y m s) = y := by
    by_contra hne
    rcases lt_or_gt_of_ne hne with hlt2 | hgt2
    · have := sbY_mono (ord2year (ymd2ord y m s) + 1) y (by omega) (by omega) (by omega)
      omega
    · have := sbY_mono (y+1) (ord2year (ymd2ord y m s)) (by omega) (by omega) (by omega)
      omega
  obtain ⟨hM1, hM24, hMlt, hMle⟩ := ord2month_spec y
    (ymd2ord y m s - solsBeforeYear y) h0 h9999 (by omega) (by omega)
  have hn1 : ymd2ord y m s - solsBeforeYear y = solsBeforeMonth m + s := by
    unfold ymd2ord
    ring
  rw [hn1] at hMlt hMle hM1 hM24
  have hmm : ord2month (solsBeforeMonth m + s) = m := by
    by_contra hne
    rcases lt_or_gt_of_ne hne with hlt2 | hgt2
    · -- M < m : sbm(M+1) ≤ sbm m < n1 but n1 ≤ sbm M + sim M = sbm (M+1)
      have hM23 : ord2month (solsBeforeMonth m + s) ≤ 23 := by omega
      have hms := month_step y (ord2month (solsBeforeMonth m + s)) hM1 hM23
      have hmono := sbm_mono (ord2month (solsBeforeMonth m + s) + 1) m (by omega)
      have hsmm : solsBeforeMonth m < solsBeforeMonth m + s := by omega
      omega
    · -- m < M : sbm(m+1) ≤ sbm M < n1 = sbm m + s ≤ sbm m + sim m = sbm (m+1)
      have hm23 : m ≤ 23 := by omega
      have hms := month_step y m hm1 hm23
      have hmono := sbm_mono (m + 1) (ord2month (solsBeforeMonth m + s)) (by omega)
      omega
  show (ord2year (ymd2ord y m s),
    ord2month (ymd2ord y m s - solsBeforeYear (ord2year (ymd2ord y m s))),
    ymd2ord y m s - solsBeforeYear (ord2year (ymd2ord y m s)) -
      solsBeforeMonth (ord2month (ymd2ord y m s - solsBeforeYear (ord2year (ymd2ord y m s))))) =
    (y, m, s)
  rw [hyy, hn1, hmm]
  refine Prod.ext rfl (Prod.ext rfl ?_)
  simp only
  omega

/-! ### Duration lemmas -/

lemma tdNew_eq_ofTotal (a1 a2 a3 a4 a5 a6 a7 : ℤ) :
    tdNew a1 a2 a3 a4 a5 a6 a7 = tdOfTotal (tdTotal a1 a2 a3 a4 a5 a6 a7) := by
  simp only [tdNew, tdOfTotal, tdTotal]
  split_ifs with h1 h2 h2
  · rfl
  · exfalso; omega
  · exfalso; omega
  · simp only [Option.some.injEq, Mtimedelta.mk.injEq]
    refine ⟨by omega, by omega, by omega⟩

lemma tdOfTotal_normalized (t : ℤ) (a : Mtimedelta) (h : tdOfTotal t = some a) :
    tdNormalized a := by
  unfold tdOfTotal at h
  split_ifs at h with h1
  simp only [Option.some.injEq] at h
  subst h
  unfold tdNormalized
  dsimp only
  refine ⟨by omega, by omega, by omega, by omega, by omega⟩

lemma tdOfTotal_total (t : ℤ) (a : Mtimedelta) (h : tdOfTotal t = some a) :
    tdToMicro a = t := by
  unfold tdOfTotal at h
  split_ifs at h with h1
  simp only [Option.some.injEq] at h
  subst h
  unfold tdToMicro
  dsimp only
  omega

lemma tdOfTotal_self (a : Mtimedelta) (h : tdNormalized a) :
    tdOfTotal (tdToMicro a) = some a := by
  obtain ⟨ad, as, au⟩ := a
  unfold tdNormalized at h
  dsimp only at h
  obtain ⟨h1, h2, h3, h4, h5⟩ := h
  unfold tdOfTotal tdToMicro
  dsimp only
  rw [if_neg (by omega)]
  simp only [Option.some.injEq, Mtimedelta.mk.injEq]
  refine ⟨by omega, by omega, by omega⟩

lemma tdAdd_eq_ofTotal (a b : Mtimedelta) :
    tdAdd a b = tdOfTotal (tdToMicro a + tdToMicro b) := by
  unfold tdAdd
  rw [tdNew_eq_ofTotal]
  have harg : tdTotal (a.sols + b.sols) (a.seconds + b.seconds)
      (a.microseconds + b.microseconds) 0 0 0 0 = tdToMicro a + tdToMicro b := by
    unfold tdTotal tdToMicro; ring
  rw [harg]

lemma tdSub_eq_ofTotal (a b : Mtimedelta) :
    tdSub a b = tdOfTotal (tdToMicro a - tdToMicro b) := by
  unfold tdSub
  rw [tdNew_eq_ofTotal]
  have harg : tdTotal (a.sols - b.sols) (a.seconds - b.seconds)
      (a.microseconds - b.microseconds) 0 0 0 0 = tdToMicro a - tdToMicro b := by
    unfold tdTotal tdToMicro; ring
  rw [harg]

/-! ### Claim theorems -/

/-- C1: ordinal/date conversion is a bijection on the supported range: for
every ordinal `n` in `[1, 6_685_945]`, `_ymd2ord` applied to the triple
returned by `_ord2ymd(n)` equals `n`; and for every valid `(year, month,
sol)`, `_ord2ymd(_ymd2ord(year, month, sol))` returns exactly
`(year, month, sol)`. -/
theorem c1_ordinal_ymd_bijection :
    (∀ n : ℤ, 1 ≤ n → n ≤ 6685945 →
      validYMD (ord2ymd n).1 (ord2ymd n).2.1 (ord2ymd n).2.2 ∧
      ymd2ord (ord2ymd n).1 (ord2ymd n).2.1 (ord2ymd n).2.2 = n) ∧
    (∀ y m s : ℤ, validYMD y m s → ord2ymd (ymd2ord y m s) = (y, m, s)) :=
  ⟨fun n h1 h2 => ord2ymd_spec n h1 h2, ymd2ord_roundtrip⟩

theorem c1_ordinal_ymd_bijection_witness :
    ((1:ℤ) ≤ 146783 ∧ (146783:ℤ) ≤ 6685945 ∧
      validYMD (ord2ymd 146783).1 (ord2ymd 146783).2.1 (ord2ymd 146783).2.2 ∧
      ymd2ord (ord2ymd 146783).1 (ord2ymd 146783).2.1 (ord2ymd 146783).2.2 = 146783) ∧
    (validYMD 219 13 27 ∧ ord2ymd (ymd2ord 219 13 27) = (219, 13, 27)) :=
  ⟨⟨by norm_num, by norm_num,
    c1_ordinal_ymd_bijection.1 146783 (by norm_num) (by norm_num)⟩,
   ⟨by decide, c1_ordinal_ymd_bijection.2 219 13 27 (by decide)⟩⟩

/-- C2: the closed-form sol count is consistent with the leap predicate and
month lengths: for every year `y` in `[0, 9998]`,
`_sols_before_year(y+1) - _sols_before_year(y)` equals the sum of
`_sols_in_month(y, m)` over `m = 1..24`, which is 669 when `_is_leap(y)` and
668 otherwise; and `_sols_before_year(0) = 0`. -/
theorem c2_sols_before_year_consistent :
    (∀ y : ℤ, 0 ≤ y → y ≤ 9998 →
      solsBeforeYear (y+1) - solsBeforeYear y
          = ((List.range 24).map (fun i => solsInMonth y ((i : ℤ) + 1))).sum ∧
      solsBeforeYear (y+1) - solsBeforeYear y
          = (if isLeap y = true then 669 else 668)) ∧
    solsBeforeYear 0 = 0 := by
  refine ⟨fun y h0 h9 => ?_, solsBeforeYear_zero⟩
  have hstep := sbY_step y h0 (by omega)
  have hyl := yearLen y h0 (by omega)
  constructor
  · have hsum : ((List.range 24).map (fun i => solsInMonth y ((i : ℤ) + 1))).sum
        = 641 + solsInMonth y 24 := by
      simp only [List.range_succ, List.map_append, List.map_cons, List.map_nil,
        List.sum_append, List.sum_cons, List.sum_nil]
      norm_num [solsInMonth]
      split_ifs <;> norm_num
    rw [hsum]
    omega
  · rw [hstep]
    ring

theorem c2_sols_before_year_consistent_witness :
    ((0:ℤ) ≤ 2000 ∧ (2000:ℤ) ≤ 9998 ∧
      solsBeforeYear 2001 - solsBeforeYear 2000
          = ((List.range 24).map (fun i => solsInMonth 2000 ((i : ℤ) + 1))).sum ∧
      solsBeforeYear 2001 - solsBeforeYear 2000
          = (if isLeap 2000 = true then 669 else 668)) ∧
    solsBeforeYear 0 = 0 :=
  ⟨⟨by norm_num, by norm_num,
    (c2_sols_before_year_consistent.1 2000 (by norm_num) (by norm_num)).1,
    (c2_sols_before_year_consistent.1 2000 (by norm_num) (by norm_num)).2⟩,
   c2_sols_before_year_consistent.2⟩

/-- C3: `_is_leap` follows the five-band rule stated by the specification
(modelled verbatim by `isLeapSpec`), and in particular
`_is_leap(2000) = true`, `_is_leap(2100) = false`, `_is_leap(2010) = true`,
`_is_leap(2001) = true`. -/
theorem c3_is_leap_band_rule :
    (∀ y : ℤ, isLeap y = isLeapSpec y) ∧ isLeap 2000 = true ∧
      isLeap 2100 = false ∧ isLeap 2010 = true ∧ isLeap 2001 = true := by
  refine ⟨fun y => ?_, by decide, by decide, by decide, by decide⟩
  unfold isLeap isLeapSpec bandLeapSpec
  rfl

/-- C4: `Mtimedelta` normalization is decomposition-independent for integer
arguments: argument tuples with equal net microsecond totals construct equal
values (including identical overflow behaviour), and in particular
`Mtimedelta(sols=1) == Mtimedelta(seconds=86400) == Mtimedelta(hours=24)`. -/
theorem c4_duration_decomposition_independent :
    (∀ a1 a2 a3 a4 a5 a6 a7 b1 b2 b3 b4 b5 b6 b7 : ℤ,
      tdTotal a1 a2 a3 a4 a5 a6 a7 = tdTotal b1 b2 b3 b4 b5 b6 b7 →
      tdNew a1 a2 a3 a4 a5 a6 a7 = tdNew b1 b2 b3 b4 b5 b6 b7) ∧
    tdNew 1 0 0 0 0 0 0 = tdNew 0 86400 0 0 0 0 0 ∧
    tdNew 0 86400 0 0 0 0 0 = tdNew 0 0 0 0 0 24 0 := by
  refine ⟨fun a1 a2 a3 a4 a5 a6 a7 b1 b2 b3 b4 b5 b6 b7 h => ?_, by decide, by decide⟩
  rw [tdNew_eq_ofTotal, tdNew_eq_ofTotal, h]

theorem c4_duration_decomposition_independent_witness :
    tdTotal 9 0 0 0 0 0 0 = tdTotal 2 0 0 0 0 0 1 ∧
      tdNew 9 0 0 0 0 0 0 = tdNew 2 0 0 0 0 0 1 :=
  ⟨by decide,
   c4_duration_decomposition_independent.1 9 0 0 0 0 0 0 2 0 0 0 0 0 1 (by decide)⟩

/-- C5: every successfully constructed `Mtimedelta` satisfies
`0 ≤ seconds ≤ 86399`, `0 ≤ microseconds ≤ 999999`, `|sols| ≤ 999_999_999`;
construction fails with overflow exactly when the normalized sol count
(`total // 86400000000`) exceeds the bound in absolute value; and in
particular `Mtimedelta(sols=1_000_000_000)` fails while
`Mtimedelta(sols=999_999_999)` succeeds. -/
theorem c5_duration_invariant :
    (∀ a1 a2 a3 a4 a5 a6 a7 : ℤ, ∀ td : Mtimedelta,
      tdNew a1 a2 a3 a4 a5 a6 a7 = some td → tdNormalized td) ∧
    (∀ a1 a2 a3 a4 a5 a6 a7 : ℤ,
      tdNew a1 a2 a3 a4 a5 a6 a7 = none ↔
        999999999 < (tdTotal a1 a2 a3 a4 a5 a6 a7 / 86400000000).natAbs) ∧
    tdNew 1000000000 0 0 0 0 0 0 = none ∧
    tdNew 999999999 0 0 0 0 0 0 = some ⟨999999999, 0, 0⟩ := by
  refine ⟨?_, ?_, by decide, by decide⟩
  · intro a1 a2 a3 a4 a5 a6 a7 td h
    rw [tdNew_eq_ofTotal] at h
    exact tdOfTotal_normalized _ _ h
  · intro a1 a2 a3 a4 a5 a6 a7
    rw [tdNew_eq_ofTotal]
    unfold tdOfTotal
    split_ifs with h
    · exact ⟨fun _ => h, fun _ => rfl⟩
    · exact ⟨fun hx => by simp at hx, fun hx => absurd hx h⟩

theorem c5_duration_invariant_witness :
    tdNew 0 0 0 0 0 0 (-3) = some ⟨-21, 0, 0⟩ ∧ tdNormalized ⟨-21, 0, 0⟩ :=
  ⟨by decide, c5_duration_invariant.1 0 0 0 0 0 0 (-3) ⟨-21, 0, 0⟩ (by decide)⟩

/-- C6: `Mtimedelta` addition is commutative and subtraction inverts it: for
normalized values `a`, `b`, `a + b == b + a`, and whenever `a + b` does not
overflow, `(a + b) - b == a`. -/
theorem c6_duration_add_comm_sub_inverse :
    ∀ a b : Mtimedelta, tdNormalized a → tdNormalized b →
      tdAdd a b = tdAdd b a ∧ ∀ c, tdAdd a b = some c → tdSub c b = some a := by
  intro a b ha _hb
  constructor
  · rw [tdAdd_eq_ofTotal, tdAdd_eq_ofTotal, Int.add_comm]
  · intro c hc
    rw [tdAdd_eq_ofTotal] at hc
    have htc := tdOfTotal_total _ _ hc
    rw [tdSub_eq_ofTotal, htc]
    have harg : tdToMicro a + tdToMicro b - tdToMicro b = tdToMicro a := by ring
    rw [harg]
    exact tdOfTotal_self a ha

theorem c6_duration_add_comm_sub_inverse_witness :
    tdNormalized ⟨1, 2, 3⟩ ∧ tdNormalized ⟨4, 5, 6⟩ ∧
      tdAdd ⟨1, 2, 3⟩ ⟨4, 5, 6⟩ = tdAdd ⟨4, 5, 6⟩ ⟨1, 2, 3⟩ ∧
      tdAdd ⟨1, 2, 3⟩ ⟨4, 5, 6⟩ = some ⟨5, 7, 9⟩ ∧
      tdSub ⟨5, 7, 9⟩ ⟨4, 5, 6⟩ = some ⟨1, 2, 3⟩ :=
  ⟨by decide, by decide,
   (c6_duration_add_comm_sub_inverse ⟨1, 2, 3⟩ ⟨4, 5, 6⟩ (by decide) (by decide)).1,
   by decide,
   (c6_duration_add_comm_sub_inverse ⟨1, 2, 3⟩ ⟨4, 5, 6⟩ (by decide) (by decide)).2
     ⟨5, 7, 9⟩ (by decide)⟩

/-- C7: for every valid `Mdate` `d` and `Mtimedelta` `t`, when the ordinal
`d.toordinal() + t.sols` stays in `[1, 6_685_945]`, `d + t` is the `Mdate`
with exactly that ordinal (only `t.sols` is read, so the normalized seconds
and microseconds of `t` cannot affect the result); outside the range the
addition raises `OverflowError`. -/
theorem c7_date_add_spec :
    ∀ (d : Mdate) (t : Mtimedelta), validMdate d →
      ((1 ≤ mdateToOrd d + t.sols ∧ mdateToOrd d + t.sols ≤ 6685945) →
        mdateAdd d t = some (mdateFromOrd (mdateToOrd d + t.sols)) ∧
        validMdate (mdateFromOrd (mdateToOrd d + t.sols)) ∧
        mdateToOrd (mdateFromOrd (mdateToOrd d + t.sols)) = mdateToOrd d + t.sols) ∧
      ((mdateToOrd d + t.sols < 1 ∨ 6685945 < mdateToOrd d + t.sols) →
        mdateAdd d t = none) := by
  intro d t _hv
  constructor
  · intro ⟨hr1, hr2⟩
    obtain ⟨hval, hord⟩ := ord2ymd_spec (mdateToOrd d + t.sols) hr1 hr2
    refine ⟨?_, hval, ?_⟩
    · unfold mdateAdd
      rw [if_pos ⟨by omega, hr2⟩]
    · unfold mdateToOrd mdateFromOrd
      dsimp only
      exact hord
  · intro hout
    unfold mdateAdd
    rw [if_neg (by omega)]

theorem c7_date_add_spec_witness :
    (validMdate ⟨219, 13, 27⟩ ∧
      1 ≤ mdateToOrd ⟨219, 13, 27⟩ + (⟨1, 2, 3⟩ : Mtimedelta).sols ∧
      mdateToOrd ⟨219, 13, 27⟩ + (⟨1, 2, 3⟩ : Mtimedelta).sols ≤ 6685945 ∧
      mdateAdd ⟨219, 13, 27⟩ ⟨1, 2, 3⟩
        = some (mdateFromOrd (mdateToOrd ⟨219, 13, 27⟩ + (⟨1, 2, 3⟩ : Mtimedelta).sols))) ∧
    (6685945 < mdateToOrd ⟨219, 13, 27⟩ + (⟨7000000, 0, 0⟩ : Mtimedelta).sols ∧
      mdateAdd ⟨219, 13, 27⟩ ⟨7000000, 0, 0⟩ = none) :=
  ⟨⟨by decide, by decide, by decide,
    ((c7_date_add_spec ⟨219, 13, 27⟩ ⟨1, 2, 3⟩ (by decide)).1 ⟨by decide, by decide⟩).1⟩,
   ⟨by decide,
    (c7_date_add_spec ⟨219, 13, 27⟩ ⟨7000000, 0, 0⟩ (by decide)).2 (Or.inr (by decide))⟩⟩

/-- C8: mixing naive and offset-aware `Mdatetime` values is asymmetric
between equality and ordering: for a naive `a` and an aware `b` (any
contract-honouring provider that resolves to a non-`None` offset for `b`),
`a == b` returns false without raising while the strict-order comparisons
raise the naive/aware `TypeError`. -/
theorem c8_naive_aware_asymmetry :
    ∀ (a b : Mdt) (p : Mtz) (off : Mtimedelta),
      a.tz = none → b.tz = some p → tzWellBehaved p → p.off b.f = some off →
      mdtEq a b = .ok false ∧ mdtLt a b = .error .naiveAware ∧
        mdtGt a b = .error .naiveAware := by
  intro a b p off ha hb hwb hoff
  have htzis : tzIs a.tz b.tz = false := by rw [ha, hb]; rfl
  have hoffa : mdtOffset a = .ok none := by
    unfold mdtOffset; rw [ha]
  have hflipa : (flipFold a).tz = none := by
    unfold flipFold; dsimp only; exact ha
  have hoffa2 : mdtOffset (flipFold a) = .ok none := by
    unfold mdtOffset; rw [hflipa]
  have hoffb : mdtOffset b = .ok (some off) := by
    unfold mdtOffset; rw [hb]; dsimp only; rw [hoff]; dsimp only
    rw [if_pos (hwb b.f off hoff)]
  have hflipb : (flipFold b).tz = some p := by
    unfold flipFold; dsimp only; exact hb
  obtain ⟨r2, hoffb2⟩ : ∃ r2, mdtOffset (flipFold b) = .ok r2 := by
    unfold mdtOffset; rw [hflipb]; dsimp only
    cases hc : p.off (flipFold b).f with
    | none => exact ⟨none, rfl⟩
    | some o2 => exact ⟨some o2, by dsimp only; rw [if_pos (hwb _ o2 hc)]⟩
  have hrestT : mdtCmpRest a b true none (some off) = .ok 2 := by
    unfold mdtCmpRest
    rw [if_neg (by simp)]
    rfl
  have hrestF : mdtCmpRest a b false none (some off) = .error .naiveAware := by
    unfold mdtCmpRest
    rw [if_neg (by simp)]
    rfl
  have hcmpT : mdtCmp a b true = .ok 2 := by
    have hred : mdtCmp a b true
        = (if some off ≠ r2 then Except.ok 2 else mdtCmpRest a b true none (some off)) := by
      unfold mdtCmp
      rw [htzis, hoffa, hoffb, hoffa2, hoffb2]
      rfl
    rw [hred]
    rcases em (some off ≠ r2) with hne | hne
    · rw [if_pos hne]
    · rw [if_neg hne, hrestT]
  have hcmpF : mdtCmp a b false = .error .naiveAware := by
    have hred : mdtCmp a b false = mdtCmpRest a b false none (some off) := by
      unfold mdtCmp
      rw [htzis, hoffa, hoffb]
      rfl
    rw [hred, hrestF]
  refine ⟨?_, ?_, ?_⟩
  · unfold mdtEq; rw [hcmpT]; rfl
  · unfold mdtLt; rw [hcmpF]; rfl
  · unfold mdtGt; rw [hcmpF]; rfl

theorem c8_naive_aware_asymmetry_witness :
    exNaive.tz = none ∧ exAware.tz = some exTz ∧ exTz.off exAware.f = some ⟨0, 3600, 0⟩ ∧
      mdtEq exNaive exAware = .ok false ∧
      mdtLt exNaive exAware = .error .naiveAware ∧
      mdtGt exNaive exAware = .error .naiveAware := by
  have hwb : tzWellBehaved exTz := by
    intro f o h
    unfold exTz at h
    simp only [Option.some.injEq] at h
    rw [← h]
    decide
  have h := c8_naive_aware_asymmetry exNaive exAware exTz ⟨0, 3600, 0⟩ rfl rfl hwb rfl
  exact ⟨rfl, rfl, rfl, h.1, h.2.1, h.2.2⟩

/-- C9 (the code violates its own assertion): `Mtimezone` accepts the offset
`Mtimedelta(seconds=30)` — it normalizes to `(0, 30, 0)` and lies between
`_minoffset` and `_maxoffset`, which are the normalizations `(-1, 0, 1)` and
`(0, 86399, 999999)` of `-Mtimedelta(hours=24, microseconds=-1)` and
`Mtimedelta(hours=24, microseconds=-1)` — yet for `Mtime(0, 0)` with that
offset the `assert not m % Mtimedelta(minutes=1), "whole minute"` in
`Mtime.__hash__` evaluates false, so hashing such an offset-aware `Mtime`
raises `AssertionError` instead of succeeding. -/
theorem c9_mtime_hash_whole_minute_fails :
    tdNew 0 30 0 0 0 0 0 = some ⟨0, 30, 0⟩ ∧
    tdNew 0 0 (-1) 0 0 24 0 = some ⟨0, 86399, 999999⟩ ∧
    tdNeg ⟨0, 86399, 999999⟩ = some ⟨-1, 0, 1⟩ ∧
    mtimezoneOffsetOK ⟨0, 30, 0⟩ = true ∧
    mtimeHashWholeMinute 0 0 ⟨0, 30, 0⟩ = some false :=
  ⟨by decide, by decide, by decide, by decide, by decide⟩

/-- C10: adding an `Mtimedelta` to an `Mdatetime` changes only the date and
time-of-day fields: whenever `dt + t` succeeds, the result carries the very
same `tzinfo` as `dt` and its `fold` is 0, even when `dt.fold == 1`. -/
theorem c10_datetime_add_same_tz_fold_zero :
    ∀ (dt : Mdt) (t : Mtimedelta) (r : Mdt),
      mdatetimeAdd dt t = .ok r → r.tz = dt.tz ∧ r.f.fold = false := by
  intro dt t r h
  unfold mdatetimeAdd at h
  rcases hb : tdNew (ymd2ord dt.f.year dt.f.month dt.f.sol)
      dt.f.second dt.f.microsecond 0 dt.f.minute dt.f.hour 0 with _ | base
  · rw [hb] at h
    exact absurd h (by simp)
  · rw [hb] at h
    dsimp only at h
    rcases hd : tdAdd base t with _ | delta
    · rw [hd] at h
      exact absurd h (by simp)
    · rw [hd] at h
      dsimp only at h
      by_cases hc : 0 < delta.sols ∧ delta.sols ≤ 6685945
      · rw [if_pos hc] at h
        injection h with h1
        rw [← h1]
        exact ⟨rfl, rfl⟩
      · rw [if_neg hc] at h
        exact absurd h (by simp)

theorem c10_datetime_add_same_tz_fold_zero_witness :
    exFold.f.fold = true ∧
      mdatetimeAdd exFold ⟨1, 2, 3⟩ = .ok exFoldAdded ∧
      exFoldAdded.tz = exFold.tz ∧ exFoldAdded.f.fold = false := by
  have hadd : mdatetimeAdd exFold ⟨1, 2, 3⟩ = .ok exFoldAdded := by
    rfl
  have h := c10_datetime_add_same_tz_fold_zero exFold ⟨1, 2, 3⟩ exFoldAdded hadd
  exact ⟨rfl, hadd, h.1, h.2⟩

end Darian
